import Mathlib

/-!
Verification of the whoop-telegram-bot-ai repository against its
natural-language specification.

The development shallowly embeds the Python modules that the checked
properties concern:

* `src/whoop_telegram_bot_ai/slots.py` — slot registry, callback
  formatting/parsing, token-based success and ideal-day predicates;
* `src/ras_bot/storage.py` — the SQLite-backed storage layer
  (`slot_responses` queries, marker-based success classification,
  ideal-day counting, WHOOP token records);
* `src/whoop_telegram_bot_ai/stats.py` — the statistics calculator
  (per-slot stats, weakest slot, message formatting);
* `src/whoop_telegram_bot_ai/whoop_client.py` — the OAuth token
  refresh path;
* `src/whoop_telegram_bot_ai/scheduler.py` — the stress-monitoring
  job's active-hours check.

Modelling conventions:

* Python `str` is modelled as `List Char` (`Str`); Python string
  operations (`split`, `in`, `startswith`, `lower`) are given faithful
  executable counterparts below.
* SQLite `TEXT` dates (ISO `YYYY-MM-DD`) compare lexicographically,
  which for valid dates coincides with the order of `date.toordinal`;
  dates are therefore modelled as integer ordinals (`Int`).
  Likewise ISO timestamps compare lexicographically in SQLite, which is
  chronological order; timestamps are modelled as `Nat`.
* Python floats that hold percentages are modelled as rationals `ℚ`;
  `round(x, 1)` is modelled exactly (the concrete values arising in the
  checked properties are not floating-point ties, so rational rounding
  agrees with CPython's float rounding on all of them).
* A SQLite database is the list of its `slot_responses` rows; a query
  is a pure function of that list.
-/

namespace WhoopBot

/-- Python strings are modelled as lists of characters. -/
abbrev Str := List Char

/-- Python `str.split(sep)` for a one-character separator: splits at every
occurrence of `sep`; `"".split(sep) == [""]`, `"_".split("_") == ["", ""]`. -/
def splitChar (sep : Char) : Str → List Str
  | [] => [[]]
  | c :: rest =>
    if c = sep then [] :: splitChar sep rest
    else
      match splitChar sep rest with
      | [] => [[c]]
      | h :: t => (c :: h) :: t

/-- Python `pat in s` (substring containment). -/
def containsSub (s pat : Str) : Bool :=
  pat.isPrefixOf s ||
    match s with
    | [] => false
    | _ :: t => containsSub t pat

/-- Python `str.lower` restricted to the alphabets that occur in the bot's
strings: ASCII letters and the Russian alphabet (both have their lowercase
letter 32 code points above the uppercase one, except `Ё`). -/
def pyLowerChar (c : Char) : Char :=
  if 'A' ≤ c ∧ c ≤ 'Z' then Char.ofNat (c.toNat + 32)
  else if 'А' ≤ c ∧ c ≤ 'Я' then Char.ofNat (c.toNat + 32)
  else if c = 'Ё' then 'ё'
  else c

/-- Python `str.lower` on a whole string. -/
def pyLower (s : Str) : Str := s.map pyLowerChar

/-- Python `str(n)` for a natural number. -/
def natStr (n : Nat) : Str := Nat.toDigits 10 n

/-!
## `slots.py` — slot registry (`whoop_telegram_bot_ai/slots.py`)
-/

/-- `SLOT_BUTTONS`: for every slot, the ordered list of
`(button text, callback token)` pairs (slots.py lines 9–35). -/
def SLOT_BUTTONS : List (Str × List (Str × Str)) :=
  [ (("S1").toList,
      [ (("✅ Утро по плану (подъём, завтрак, зал/море)").toList, ("success").toList),
        (("⏭ Сегодня утренний ритуал пропустил").toList, ("skip").toList) ]),
    (("S2").toList,
      [ (("🧘 Пауза 'я есть' была").toList, ("success").toList),
        (("💨 Проскочил без паузы").toList, ("skip").toList) ]),
    (("S3").toList,
      [ (("🚀 Был фокус-квант над главным проектом").toList, ("success").toList),
        (("🧩 Размазался по задачам").toList, ("skip").toList) ]),
    (("S4").toList,
      [ (("💰 Сделал шаг к деньгам/рынку").toList, ("success").toList),
        (("⏭ Пока без шага к деньгам").toList, ("skip").toList) ]),
    (("S5").toList,
      [ (("🌅 Был закат/природа/присутствие").toList, ("success").toList),
        (("🏠 Пропустил вечерний ритуал").toList, ("skip").toList) ]),
    (("S6").toList,
      [ (("✨ День ближе к эталону").toList, ("ideal").toList),
        (("🙂 Норм, но не цезий").toList, ("normal").toList),
        (("🌀 День ушёл в шум").toList, ("noise").toList) ]) ]

/-- `get_all_slot_ids()` = `list(SLOT_BUTTONS.keys())` (slots.py 177–184). -/
def get_all_slot_ids : List Str := SLOT_BUTTONS.map (fun kv => kv.1)

/-- The callback-data string `f"slot_{slot_id}_{callback_data}"` attached to a
button by `get_slot_buttons` (slots.py line 70). -/
def format_callback (slot_id token : Str) : Str :=
  ("slot_").toList ++ slot_id ++ '_' :: token

/-- `get_slot_buttons(slot_id)` (slots.py 48–75): the keyboard rows, one
`(text, callback_data)` button per row; `none` models the `KeyError` raised
for an unknown slot. -/
def get_slot_buttons (slot_id : Str) : Option (List (Str × Str)) :=
  match SLOT_BUTTONS.lookup slot_id with
  | none => none
  | some buttons => some (buttons.map (fun b => (b.1, format_callback slot_id b.2)))

/-- `parse_callback_data(callback_data)` (slots.py 78–101): requires the
`"slot_"` prefix, exactly three `_`-separated parts, and a known slot id;
returns `(parts[1], parts[2])`. -/
def parse_callback_data (callback_data : Str) : Option (Str × Str) :=
  if !(("slot_").toList.isPrefixOf callback_data) then none
  else
    match splitChar '_' callback_data with
    | [_, slot_id, button_choice] =>
      if slot_id ∈ get_all_slot_ids then some (slot_id, button_choice) else none
    | _ => none

/-- `is_successful_response(slot_id, button_choice)` (slots.py 104–120):
for `S6` only `"ideal"` is successful, for every other slot only
`"success"`. -/
def is_successful_response (slot_id button_choice : Str) : Bool :=
  if slot_id = ("S6").toList then button_choice == ("ideal").toList
  else button_choice == ("success").toList

/-- The list `["S1", ..., "S5"]` used by the ideal-day and weakest-slot
logic. -/
def s1_s5_slots : List Str :=
  [("S1").toList, ("S2").toList, ("S3").toList, ("S4").toList, ("S5").toList]

/-- `is_ideal_day(responses, min_successful_slots=4)` (slots.py 123–156):
counts the S1–S5 slots whose recorded response is token-successful (the
`for` loop is `countP` here), requires at least `min_successful_slots` of
them, and requires S6 to be present with a successful (`"ideal"`)
response.  The response dict is modelled as an association list. -/
def is_ideal_day (responses : List (Str × Str)) (min_successful_slots : Nat := 4) :
    Bool :=
  let successful_count := s1_s5_slots.countP (fun slot_id =>
    match responses.lookup slot_id with
    | some button_choice => is_successful_response slot_id button_choice
    | none => false)
  if successful_count < min_successful_slots then false
  else
    match responses.lookup (("S6").toList) with
    | none => false
    | some choice => is_successful_response (("S6").toList) choice

/-!
## `storage.py` — SQLite storage layer (`ras_bot/storage.py`)
-/

/-- One row of the `slot_responses` table (see `_init_database`,
storage.py 30–40).  `date` is the calendar day as an integer ordinal
(`date.toordinal`; ISO date strings compare identically), `timestamp`
the press time (ISO timestamp strings compare lexicographically, i.e.
chronologically; modelled as `Nat`). -/
structure SlotResponseRow where
  date : Int
  slot_id : Str
  button_choice : Str
  timestamp : Nat
deriving DecidableEq

/-- A database state: the list of `slot_responses` rows in insertion
order. -/
abbrev ResponseDb := List SlotResponseRow

/-- `save_response(slot_id, button_choice)` (storage.py 93–125): inserts a
new row stamped with today's date and the current timestamp. -/
def save_response (db : ResponseDb) (today : Int) (now_ts : Nat)
    (slot_id button_choice : Str) : ResponseDb :=
  db ++ [{ date := today, slot_id := slot_id, button_choice := button_choice,
           timestamp := now_ts }]

/-- The marker set of `get_slot_statistics` (storage.py 176–179) and
`_is_ideal_day` (storage.py 336–339). -/
def success_markers : List Str :=
  [("✅").toList, ("🚀").toList, ("💰").toList, ("🧘").toList, ("🌅").toList,
   ("был").toList, ("сделал").toList, ("была").toList]

/-- The success classification inside `get_slot_statistics`
(storage.py 168–180): for `S6` the choice must equal `"ideal"`; for every
other slot the lower-cased choice text must contain one of the markers. -/
def storage_choice_successful (slot_id choice : Str) : Bool :=
  if slot_id = ("S6").toList then choice == ("ideal").toList
  else success_markers.any (fun marker => containsSub (pyLower choice) marker)

/-- The result dict of `get_slot_statistics` (storage.py 184–188). -/
structure SlotStats where
  total : Nat
  successful : Nat
  percentage : ℚ
deriving DecidableEq

/-- Python `round(x)` to an integer: round half to even (CPython's float
rounding; the percentage values handled here are exactly representable, so
the rational computation agrees with the float one).  Computed on
numerator/denominator so that the kernel can evaluate it. -/
def pyRound (q : ℚ) : ℤ :=
  let fl := q.num.fdiv (q.den : ℤ)
  let twice_rem := 2 * (q.num - fl * (q.den : ℤ))
  if twice_rem < (q.den : ℤ) then fl
  else if (q.den : ℤ) < twice_rem then fl + 1
  else if fl % 2 = 0 then fl else fl + 1

/-- `q * 10`, written on numerator/denominator so that the kernel can
evaluate it. -/
def timesTen (q : ℚ) : ℚ := Rat.divInt (q.num * 10) (q.den : ℤ)

/-- Python `round(x, 1)`: round `x*10` half-to-even, divide by ten. -/
def round1 (q : ℚ) : ℚ := Rat.divInt (pyRound (timesTen q)) 10

/-- `get_slot_statistics(slot_id, days)` (storage.py 127–194): scans the
rows of the slot inside the inclusive window
`[today - days + 1, today]`; `total` is the row count and `successful`
the count of rows with a marker-successful choice (the SQL
`GROUP BY button_choice` plus per-group `COUNT(*)` summation is the same
count); `percentage = successful/total*100` rounded to one decimal, `0.0`
when `total == 0`. -/
def get_slot_statistics (db : ResponseDb) (today : Int) (slot_id : Str)
    (days : Nat) : SlotStats :=
  let end_date : Int := today
  let start_date : Int := today - days + 1
  let rows := db.filter (fun r =>
    r.slot_id == slot_id && decide (start_date ≤ r.date) && decide (r.date ≤ end_date))
  let total := rows.length
  let successful := rows.countP (fun r => storage_choice_successful slot_id r.button_choice)
  -- `successful / total * 100`, as an exact rational
  let percentage : ℚ := if total > 0 then Rat.divInt (successful * 100) total else 0
  { total := total, successful := successful, percentage := round1 percentage }

/-- `ORDER BY timestamp DESC`: most recent rows first. -/
def ts_ge (a b : SlotResponseRow) : Prop := b.timestamp ≤ a.timestamp

instance : DecidableRel ts_ge := fun _ _ => Nat.decLe _ _

instance : IsTotal SlotResponseRow ts_ge :=
  ⟨fun a b => Nat.le_total b.timestamp a.timestamp⟩

instance : IsTrans SlotResponseRow ts_ge :=
  ⟨fun _ _ _ h1 h2 => le_trans h2 h1⟩

/-- The accumulation loop of `get_day_responses` (storage.py 225–229):
keep, for each slot, the first row seen (rows arrive most-recent
first). -/
def first_per_slot (acc : List (Str × Str)) : List SlotResponseRow → List (Str × Str)
  | [] => acc
  | r :: rest =>
    if (acc.lookup r.slot_id).isSome then first_per_slot acc rest
    else first_per_slot (acc ++ [(r.slot_id, r.button_choice)]) rest

/-- `get_day_responses(target_date)` (storage.py 196–237): the rows of the
day ordered by timestamp descending, reduced to the first (most recent)
choice per slot. -/
def get_day_responses (db : ResponseDb) (target_date : Int) : List (Str × Str) :=
  let rows := List.insertionSort ts_ge (db.filter (fun r => decide (r.date = target_date)))
  first_per_slot [] rows

/-- `Storage._is_ideal_day(responses)` (storage.py 314–351): at least 4 of
S1–S5 must have a marker-successful lower-cased choice, and the S6 choice
must contain `"эталон"` or `"ideal"`. -/
def storage_is_ideal_day (responses : List (Str × Str)) : Bool :=
  let successful_slots := s1_s5_slots.countP (fun slot_id =>
    match responses.lookup slot_id with
    | some choice =>
      success_markers.any (fun marker => containsSub (pyLower choice) marker)
    | none => false)
  if successful_slots < 4 then false
  else
    match responses.lookup (("S6").toList) with
    | none => false
    | some s6_choice =>
      containsSub (pyLower s6_choice) (("эталон").toList) ||
        containsSub (pyLower s6_choice) (("ideal").toList)

/-- `get_ideal_days_count(days)` (storage.py 282–312): iterates every day of
the inclusive window `[today - days + 1, today]` and counts the days whose
`get_day_responses` pass `_is_ideal_day`. -/
def get_ideal_days_count (db : ResponseDb) (today : Int) (days : Nat) : Nat :=
  let start_date : Int := today - days + 1
  (List.range days).countP (fun i =>
    storage_is_ideal_day (get_day_responses db (start_date + i)))

/-- One row of the `whoop_tokens` table (storage.py 54–64).  The two stamp
fields hold ISO timestamps computed from the wall clock at write time. -/
structure WhoopTokens where
  access_token : Str
  refresh_token : Str
  expires_at : Str
  updated_at : Str
deriving DecidableEq

/-!
## `stats.py` — statistics calculator (`whoop_telegram_bot_ai/stats.py`)
-/

/-- The result dict of `StatsCalculator.calculate_statistics`
(stats.py 55–60). -/
structure Statistics where
  period_days : Nat
  slots : List (Str × SlotStats)
  ideal_days : Nat
  weakest_slot : Option Str
deriving DecidableEq

/-- The selection loop of `_get_weakest_slot` (stats.py 75–85): walk
S1–S5 in order carrying `(weakest_slot, min_percentage)`, starting from
`(None, 100.0)`; a slot with data replaces the state only when its
percentage is strictly below the carried minimum. -/
def weakest_go (slots_stats : List (Str × SlotStats)) :
    List Str → Option Str → ℚ → Option Str
  | [], weakest_slot, _ => weakest_slot
  | slot_id :: rest, weakest_slot, min_percentage =>
    match slots_stats.lookup slot_id with
    | some stats =>
      if stats.total > 0 then
        if stats.percentage < min_percentage then
          weakest_go slots_stats rest (some slot_id) stats.percentage
        else weakest_go slots_stats rest weakest_slot min_percentage
      else weakest_go slots_stats rest weakest_slot min_percentage
    | none => weakest_go slots_stats rest weakest_slot min_percentage

/-- `StatsCalculator._get_weakest_slot(slots_stats)` (stats.py 62–87). -/
def get_weakest_slot (slots_stats : List (Str × SlotStats)) : Option Str :=
  weakest_go slots_stats s1_s5_slots none 100

/-- `StatsCalculator.calculate_statistics(days)` (stats.py 26–60), with the
storage calls routed to the storage layer above. -/
def calculate_statistics (db : ResponseDb) (today : Int) (days : Nat) :
    Statistics :=
  let slots_stats := get_all_slot_ids.map (fun slot_id =>
    (slot_id, get_slot_statistics db today slot_id days))
  { period_days := days,
    slots := slots_stats,
    ideal_days := get_ideal_days_count db today days,
    weakest_slot := get_weakest_slot slots_stats }

/-- The `slot_names` table of `format_stats_message` (stats.py 105–112). -/
def slot_names : List (Str × Str) :=
  [ (("S1").toList, ("Утро тела").toList),
    (("S2").toList, ("Опора 'я есть'").toList),
    (("S3").toList, ("Фокус-квант").toList),
    (("S4").toList, ("Шаг к деньгам").toList),
    (("S5").toList, ("Закат/присутствие").toList),
    (("S6").toList, ("Оценка дня").toList) ]

/-- The `f"{p:.1f}"` rendering of the one-decimal percentages produced by
`round1` (always non-negative multiples of 1/10 here). -/
def pctStr (q : ℚ) : Str :=
  let tenths := (pyRound (timesTen q)).toNat
  natStr (tenths / 10) ++ '.' :: natStr (tenths % 10)

/-- Python `int(q / 10)` for the non-negative percentages here (truncation
towards zero, i.e. floor). -/
def tenthOfPct (q : ℚ) : Nat := (q.num / ((q.den : ℤ) * 10)).toNat

/-- `StatsCalculator.format_stats_message(stats)` (stats.py 89–145).  The
final `slots_stats[weakest_slot]["percentage"]` lookup cannot fail on
`calculate_statistics` outputs; the impossible branch renders percentage
0 (the source would raise `KeyError`). -/
def format_stats_message (stats : Statistics) : Str :=
  let header := ("📊 Статистика за ").toList ++ natStr stats.period_days ++
    (" дней:\n").toList
  let slot_lines := s1_s5_slots.filterMap (fun slot_id =>
    match stats.slots.lookup slot_id with
    | none => none
    | some slot_stat =>
      let name := (slot_names.lookup slot_id).getD slot_id
      if slot_stat.total > 0 then
        let bar_length := tenthOfPct slot_stat.percentage
        let bar := List.replicate bar_length '█' ++
          List.replicate (10 - bar_length) '░'
        some (name ++ (": ").toList ++ natStr slot_stat.successful ++
          '/' :: natStr slot_stat.total ++ (" (").toList ++
          pctStr slot_stat.percentage ++ ("%) ").toList ++ bar)
      else some (name ++ (": нет данных").toList))
  let ideal_line := ("\n✨ Эталонных дней: ").toList ++
    natStr stats.ideal_days ++ '/' :: natStr stats.period_days
  let weak_lines :=
    match stats.weakest_slot with
    | none => []
    | some weakest_slot =>
      if weakest_slot.isEmpty then []
      else
        let weakest_name := (slot_names.lookup weakest_slot).getD weakest_slot
        let weakest_percentage :=
          match stats.slots.lookup weakest_slot with
          | some s => s.percentage
          | none => 0
        [("\n💡 Слабое звено: ").toList ++ weakest_name ++ (" (").toList ++
          pctStr weakest_percentage ++ ("%)").toList]
  List.intercalate ('\n' :: []) ([header] ++ slot_lines ++ [ideal_line] ++ weak_lines)

/-!
## `whoop_client.py` — token refresh (`whoop_telegram_bot_ai/whoop_client.py`)
-/

/-- What the WHOOP token endpoint would answer if called: an HTTP error
status, or a parsed JSON body with optional `access_token` /
`refresh_token` fields. -/
inductive TokenEndpointResult where
  | httpError (status : Nat)
  | response (access_token : Option Str) (refresh_token : Option Str)
      (expires_in : Nat)
deriving DecidableEq

/-- Observable outcome of a successful `refresh_access_token` call: the
returned token, whether the token endpoint was contacted, and the stored
token row afterwards. -/
structure RefreshOutcome where
  token : Str
  network_called : Bool
  store : Option WhoopTokens
deriving DecidableEq

/-- `WhoopClient.refresh_access_token(user_id)`
(whoop_client.py 243–331).  `stored` is the user's `whoop_tokens` row
(`none` if the user never connected), `net` the token endpoint's
behaviour, and `stamp_expires`/`stamp_updated` the wall-clock stamps the
storage layer would write.  Errors carry the raised `ValueError`
message. -/
def refresh_access_token (is_configured : Bool) (stored : Option WhoopTokens)
    (net : TokenEndpointResult) (stamp_expires stamp_updated : Str) :
    Except Str RefreshOutcome :=
  if !is_configured then .error (("WHOOP API not configured").toList)
  else
    match stored with
    | none => .error (("No tokens found for user").toList)
    | some tokens =>
      -- degraded-refresh mode: the stored refresh token is the access token
      if tokens.refresh_token == tokens.access_token then
        .ok { token := tokens.access_token, network_called := false,
              store := some tokens }
      else
        match net with
        | .httpError status =>
          if status == 400 || status == 401 then
            .error (("Token refresh failed. Please reconnect WHOOP via /whoop_connect").toList)
          else
            .error (("Failed to refresh token: ").toList ++ natStr status)
        | .response none _ _ =>
          .error (("Invalid token response from WHOOP").toList)
        | .response (some access_token) new_rt _expires_in =>
          let refresh_token := tokens.refresh_token
          let new_refresh_token := new_rt.getD refresh_token
          -- update_whoop_tokens: access token and stamps updated in place
          let store1 : WhoopTokens :=
            { tokens with access_token := access_token,
                          expires_at := stamp_expires,
                          updated_at := stamp_updated }
          -- if a new refresh token arrived, save_whoop_tokens overwrites the row
          let store2 : WhoopTokens :=
            if new_refresh_token ≠ refresh_token then
              { access_token := access_token,
                refresh_token := new_refresh_token,
                expires_at := stamp_expires,
                updated_at := stamp_updated }
            else store1
          .ok { token := access_token, network_called := true,
                store := some store2 }

/-!
## `scheduler.py` — stress-monitoring active-hours check
(`whoop_telegram_bot_ai/scheduler.py` 338–352)
-/

/-- A `datetime.time` of the form `time(h, m)` as microseconds of day
(`datetime.time` values compare by (hour, minute, second, microsecond),
i.e. by microseconds of day). -/
def hm_micro (h m : Nat) : Nat := (h * 3600 + m * 60) * 1000000

/-- `time(23, 59, 59)` in microseconds of day. -/
def end_of_day_235959 : Nat := hm_micro 23 59 + 59 * 1000000

/-- The active-hours test of `SlotScheduler._check_stress_job`
(scheduler.py 338–352): `start`/`end` are the configured `"HH:MM"` values
parsed by `strptime` (so seconds/microseconds 0); an end of `00:00` is
replaced by `23:59:59`; `current` is `datetime.now().time()` in
microseconds of day; the job proceeds iff
`start_time <= current_time <= end_time`. -/
def stress_within_active_hours (current : Nat) (start_h start_m end_h end_m : Nat) :
    Bool :=
  let start_time := hm_micro start_h start_m
  let end_time := if end_h == 0 && end_m == 0 then end_of_day_235959
    else hm_micro end_h end_m
  decide (start_time ≤ current) && decide (current ≤ end_time)

/-!
## `bot.py` — button-callback handler (`ras_bot/bot.py` 256–284)
-/

/-- The database effect of `RASBot._handle_button_callback`: parse the
callback payload; on success persist `(slot_id, button_choice)` via
`save_response`, otherwise leave the database unchanged (the handler only
answers with an error toast). -/
def handle_button_callback (db : ResponseDb) (today : Int) (now_ts : Nat)
    (callback_data : Str) : ResponseDb :=
  match parse_callback_data callback_data with
  | none => db
  | some (slot_id, button_choice) =>
    save_response db today now_ts slot_id button_choice

/-!
## Theorems
-/

/-- Claim C5: `IsSuccessfulResponse(slotId, token)` is true exactly when
either the slot is `S6` and the token is `"ideal"`, or the slot is not
`S6` and the token is `"success"`; in particular `"skip"`, `"normal"` and
`"noise"` are never successful. -/
theorem is_successful_response_characterization :
    (∀ slot_id button_choice : Str,
      is_successful_response slot_id button_choice = true ↔
        ((slot_id = ("S6").toList ∧ button_choice = ("ideal").toList) ∨
         (slot_id ≠ ("S6").toList ∧ button_choice = ("success").toList))) ∧
    (∀ slot_id : Str,
      is_successful_response slot_id (("skip").toList) = false ∧
      is_successful_response slot_id (("normal").toList) = false ∧
      is_successful_response slot_id (("noise").toList) = false) := by
  constructor
  · intro slot_id button_choice
    by_cases h : slot_id = ("S6").toList <;>
      [skip; simp at h] <;> simp [is_successful_response, h]
  · intro slot_id
    by_cases h : slot_id = ("S6").toList
    · subst h
      exact ⟨by decide, by decide, by decide⟩
    · simp only [is_successful_response, if_neg h]
      exact ⟨by decide, by decide, by decide⟩

/-- Example map: S1–S4 successful, S5 skipped, S6 ideal. -/
def ideal_day_example_boundary : List (Str × Str) :=
  [(("S1").toList, ("success").toList), (("S2").toList, ("success").toList),
   (("S3").toList, ("success").toList), (("S4").toList, ("success").toList),
   (("S5").toList, ("skip").toList), (("S6").toList, ("ideal").toList)]

/-- Example map: only S1 and S2 successful, S6 ideal. -/
def ideal_day_example_two : List (Str × Str) :=
  [(("S1").toList, ("success").toList), (("S2").toList, ("success").toList),
   (("S6").toList, ("ideal").toList)]

/-- Example map: S1–S5 successful, S6 `"normal"`. -/
def ideal_day_example_normal : List (Str × Str) :=
  [(("S1").toList, ("success").toList), (("S2").toList, ("success").toList),
   (("S3").toList, ("success").toList), (("S4").toList, ("success").toList),
   (("S5").toList, ("success").toList), (("S6").toList, ("normal").toList)]

/-- Claim C6: `IsIdealDay(responses, minSuccessfulSlots)` holds exactly when
at least `minSuccessfulSlots` of S1–S5 have a token-successful response and
S6 is recorded with a successful (`"ideal"`) token; in particular the three
boundary examples of the claim evaluate as stated. -/
theorem is_ideal_day_characterization :
    (∀ (responses : List (Str × Str)) (min_successful_slots : Nat),
      is_ideal_day responses min_successful_slots = true ↔
        (min_successful_slots ≤ s1_s5_slots.countP (fun slot_id =>
            match responses.lookup slot_id with
            | some c => is_successful_response slot_id c
            | none => false) ∧
          ∃ c, responses.lookup (("S6").toList) = some c ∧
            is_successful_response (("S6").toList) c = true)) ∧
    is_ideal_day ideal_day_example_boundary 4 = true ∧
    is_ideal_day ideal_day_example_two 4 = false ∧
    is_ideal_day ideal_day_example_normal 4 = false := by
  refine ⟨?_, by decide, by decide, by decide⟩
  intro responses m
  unfold is_ideal_day
  by_cases hc : s1_s5_slots.countP (fun slot_id =>
      match responses.lookup slot_id with
      | some c => is_successful_response slot_id c
      | none => false) < m
  · simp only [if_pos hc]
    constructor
    · intro h; exact absurd h (by simp)
    · rintro ⟨hle, -⟩; omega
  · simp only [if_neg hc]
    cases hS6 : responses.lookup (("S6").toList) with
    | none => simp [hS6]
    | some c =>
      simp only [hS6]
      constructor
      · intro h; exact ⟨Nat.le_of_not_lt hc, c, rfl, h⟩
      · rintro ⟨-, c', hc', h⟩
        cases hc'; exact h

/-- The database of claim C1's scenario: exactly three responses for `S1`
saved today (ordinal 100) with the button-choice tokens the callback
handler persists: `"success"`, `"success"`, `"skip"`. -/
def c1_db : ResponseDb :=
  save_response
    (save_response
      (save_response [] 100 1 (("S1").toList) (("success").toList))
      100 2 (("S1").toList) (("success").toList))
    100 3 (("S1").toList) (("skip").toList)

/-- Claim C1 (code bug): on the three token rows `"success"`, `"success"`,
`"skip"` for `S1` inside the 7-day window, `get_slot_statistics` returns
`total = 3` but `successful = 0` and `percentage = 0.0` — not the
`successful = 2`, `percentage = 66.7` the spec (and
`tests/test_storage.py::test_get_slot_statistics`) state — because the
marker-based classification matches none of the saved tokens.  The
zero-response half of the claim does hold: an empty window yields
`percentage = 0.0` without error. -/
theorem get_slot_statistics_token_rows_eval :
    get_slot_statistics c1_db 100 (("S1").toList) 7 =
      { total := 3, successful := 0, percentage := 0 } ∧
    get_slot_statistics [] 100 (("S1").toList) 7 =
      { total := 0, successful := 0, percentage := 0 } := by
  decide

/-- The database of claim C2's scenario: one full day (ordinal 100) saved
through the handler's tokens — S1–S5 `"success"`, S6 `"ideal"`. -/
def c2_db : ResponseDb :=
  save_response
    (save_response
      (save_response
        (save_response
          (save_response
            (save_response [] 100 1 (("S1").toList) (("success").toList))
            100 2 (("S2").toList) (("success").toList))
          100 3 (("S3").toList) (("success").toList))
        100 4 (("S4").toList) (("success").toList))
      100 5 (("S5").toList) (("success").toList))
    100 6 (("S6").toList) (("ideal").toList)

set_option maxRecDepth 100000 in
/-- Claim C2 (code bug): after saving S1–S5 as `"success"` and S6 as
`"ideal"`, `calculate_statistics(1)` reports `ideal_days = 0`, and the
formatted message contains `"Эталонных дней: 0"` and not
`"Эталонных дней: 1"` — the storage-level ideal-day predicate matches
marker substrings that the persisted tokens never contain, contradicting
the spec scenario and `tests/test_storage.py::test_get_ideal_days_count`. -/
theorem calculate_statistics_ideal_day_eval :
    (calculate_statistics c2_db 100 1).ideal_days = 0 ∧
    containsSub (format_stats_message (calculate_statistics c2_db 100 1))
      (("Эталонных дней: 1").toList) = false ∧
    containsSub (format_stats_message (calculate_statistics c2_db 100 1))
      (("Эталонных дней: 0").toList) = true := by
  decide

/-- Claim C8: `refresh_access_token` fails with the no-tokens error when no
token row is stored, and in degraded-refresh mode (stored refresh token
equal to the stored access token) returns the stored access token without
contacting the token endpoint and leaves the stored row unchanged. -/
theorem refresh_access_token_degraded_mode
    (net : TokenEndpointResult) (stamp_expires stamp_updated : Str) :
    refresh_access_token true none net stamp_expires stamp_updated =
      .error (("No tokens found for user").toList) ∧
    (∀ tokens : WhoopTokens, tokens.refresh_token = tokens.access_token →
      refresh_access_token true (some tokens) net stamp_expires stamp_updated =
        .ok { token := tokens.access_token, network_called := false,
              store := some tokens }) := by
  constructor
  · rfl
  · intro tokens h
    simp [refresh_access_token, h]

/-- Witness for C8 at a concrete store and a failing network: the error is
returned for a missing row, and a row whose refresh token equals its
access token is answered from the store even though the endpoint would
have failed. -/
theorem refresh_access_token_degraded_mode_witness :
    refresh_access_token true none (.httpError 500) [] [] =
      .error (("No tokens found for user").toList) ∧
    refresh_access_token true
        (some { access_token := ("tok").toList, refresh_token := ("tok").toList,
                expires_at := ("e").toList, updated_at := ("u").toList })
        (.httpError 500) [] [] =
      .ok { token := ("tok").toList, network_called := false,
            store := some { access_token := ("tok").toList,
                            refresh_token := ("tok").toList,
                            expires_at := ("e").toList,
                            updated_at := ("u").toList } } :=
  ⟨(refresh_access_token_degraded_mode (.httpError 500) [] []).1,
   (refresh_access_token_degraded_mode (.httpError 500) [] []).2 _ (by decide)⟩

/-- Claim C9, counterexample: at the current time 23:59:59.500000, with
start 08:00 (≤ the current time) and the configured end time `"00:00"`,
the active-hours test fails — the parsed end is `23:59:59.000000` and
`datetime.time` comparison has microsecond precision, so the claim's
"passes for every t with start ≤ t" is false in the final fraction of a
second. -/
theorem stress_active_hours_final_microseconds :
    stress_within_active_hours (hm_micro 23 59 + 59500000) 8 0 0 0 = false ∧
    hm_micro 8 0 ≤ hm_micro 23 59 + 59500000 := by
  decide

/-- Claim C9, amended: with a configured end time of `"00:00"` the test
passes exactly when `start ≤ t ≤ 23:59:59.000000` (so the window is never
empty, but time-of-day values in the fractional second past 23:59:59
fail); with any other end time it passes exactly when
`start ≤ t ≤ end`. -/
theorem stress_active_hours_characterization
    (current start_h start_m : Nat) :
    (stress_within_active_hours current start_h start_m 0 0 = true ↔
      hm_micro start_h start_m ≤ current ∧ current ≤ end_of_day_235959) ∧
    (∀ end_h end_m : Nat, ¬(end_h = 0 ∧ end_m = 0) →
      (stress_within_active_hours current start_h start_m end_h end_m = true ↔
        hm_micro start_h start_m ≤ current ∧ current ≤ hm_micro end_h end_m)) := by
  constructor
  · simp [stress_within_active_hours]
  · intro end_h end_m h
    have hb : (end_h == 0 && end_m == 0) = false := by
      rcases Nat.eq_zero_or_pos end_h with h1 | h1
    -- placeholder
      · rcases Nat.eq_zero_or_pos end_m with h2 | h2
        · exact absurd ⟨h1, h2⟩ h
        · simp [h1]; omega
      · simp; omega
    simp [stress_within_active_hours, hb]

/-- Witness for C9's amended characterization: noon is inside 08:00–22:00
and 23:00 is outside it, while noon is inside 08:00–"00:00". -/
theorem stress_active_hours_characterization_witness :
    stress_within_active_hours (hm_micro 12 0) 8 0 22 0 = true ∧
    stress_within_active_hours (hm_micro 23 0) 8 0 22 0 = false ∧
    stress_within_active_hours (hm_micro 12 0) 8 0 0 0 = true := by
  refine ⟨?_, ?_, ?_⟩
  · exact ((stress_active_hours_characterization (hm_micro 12 0) 8 0).2 22 0
      (by omega)).mpr (by decide)
  · have h := (stress_active_hours_characterization (hm_micro 23 0) 8 0).2 22 0
      (by omega)
    by_contra hc
    have : stress_within_active_hours (hm_micro 23 0) 8 0 22 0 = true := by
      revert hc
      cases stress_within_active_hours (hm_micro 23 0) 8 0 22 0 <;> simp
    exact absurd (h.mp this).2 (by decide)
  · exact ((stress_active_hours_characterization (hm_micro 12 0) 8 0).1).mpr
      (by decide)

/-- The percentage a slot contributes to weakest-slot selection: present
exactly when the statistics map has the slot with a positive total. -/
def condPct (slots_stats : List (Str × SlotStats)) (slot_id : Str) : Option ℚ :=
  match slots_stats.lookup slot_id with
  | some st => if 0 < st.total then some st.percentage else none
  | none => none

/-- The weakest-slot selection as the amended claim C3 words it: among the
S1–S5 slots that have at least one recorded response, take the first (in
canonical order) whose percentage equals the minimum — provided that
minimum is strictly below 100; absent otherwise. -/
def weakest_slot_spec (slots_stats : List (Str × SlotStats)) : Option Str :=
  let pcts := s1_s5_slots.filterMap (condPct slots_stats)
  if pcts.any (fun p => decide (p < 100)) then
    s1_s5_slots.find? (fun s => condPct slots_stats s == some (pcts.foldl min 100))
  else none

theorem foldl_min_le_init : ∀ (l : List ℚ) (m : ℚ), l.foldl min m ≤ m
  | [], m => le_refl m
  | p :: l, m => le_trans (foldl_min_le_init l (min m p)) (min_le_left m p)

theorem foldl_min_le_mem : ∀ (l : List ℚ) (m x : ℚ), x ∈ l → l.foldl min m ≤ x
  | p :: l, m, x, h => by
    rcases List.mem_cons.mp h with rfl | hx
    · exact le_trans (foldl_min_le_init l (min m x)) (min_le_right m x)
    · exact foldl_min_le_mem l (min m p) x hx

theorem foldl_min_lt_iff : ∀ (l : List ℚ) (m : ℚ),
    l.foldl min m < m ↔ ∃ x ∈ l, x < m
  | [], m => by simp
  | p :: l, m => by
    simp only [List.foldl_cons]
    constructor
    · intro h
      by_cases hp : p < m
      · exact ⟨p, List.mem_cons_self _ _, hp⟩
      · rw [min_eq_left (not_lt.mp hp)] at h
        obtain ⟨x, hx, hlt⟩ := (foldl_min_lt_iff l m).mp h
        exact ⟨x, List.mem_cons_of_mem _ hx, hlt⟩
    · rintro ⟨x, hx, hlt⟩
      rcases List.mem_cons.mp hx with rfl | hx
      · exact lt_of_le_of_lt
          (le_trans (foldl_min_le_init l (min m x)) (min_le_right m x)) hlt
      · exact lt_of_le_of_lt (foldl_min_le_mem l (min m p) x hx) hlt

theorem foldl_min_eq_init (l : List ℚ) (m : ℚ) (h : ∀ x ∈ l, m ≤ x) :
    l.foldl min m = m := by
  have h1 : ¬ l.foldl min m < m := by
    rw [foldl_min_lt_iff]
    rintro ⟨x, hx, hlt⟩
    exact absurd (h x hx) (not_le.mpr hlt)
  exact le_antisymm (foldl_min_le_init l m) (not_lt.mp h1)

/-- The `_get_weakest_slot` loop computes, relative to any starting state
`(w, m)`: if some slot with data in the remaining list has a percentage
strictly below `m`, the first slot attaining the running minimum;
otherwise the carried `w`. -/
theorem weakest_go_eq (ss : List (Str × SlotStats)) :
    ∀ (l : List Str) (w : Option Str) (m : ℚ),
      weakest_go ss l w m =
        if (l.filterMap (condPct ss)).any (fun p => decide (p < m)) then
          l.find? (fun s =>
            condPct ss s == some ((l.filterMap (condPct ss)).foldl min m))
        else w
  | [], w, m => by simp [weakest_go]
  | s :: rest, w, m => by
    cases hl : ss.lookup s with
    | none =>
      have hc : condPct ss s = none := by simp [condPct, hl]
      rw [show weakest_go ss (s :: rest) w m = weakest_go ss rest w m by
        simp [weakest_go, hl]]
      rw [weakest_go_eq ss rest w m]
      simp [List.filterMap_cons, hc, List.find?_cons, Option.isSome]
    | some st =>
      by_cases ht : 0 < st.total
      · have hc : condPct ss s = some st.percentage := by simp [condPct, hl, ht]
        by_cases hp : st.percentage < m
        · rw [show weakest_go ss (s :: rest) w m =
              weakest_go ss rest (some s) st.percentage by
            simp [weakest_go, hl, ht, hp]]
          rw [weakest_go_eq ss rest (some s) st.percentage]
          have hpcts : (s :: rest).filterMap (condPct ss) =
              st.percentage :: rest.filterMap (condPct ss) := by
            simp [List.filterMap_cons, hc]
          have hany : ((s :: rest).filterMap (condPct ss)).any
              (fun p => decide (p < m)) = true := by
            rw [hpcts]; simp; exact Or.inl hp
          rw [hany, if_pos rfl]
          have hM : ((s :: rest).filterMap (condPct ss)).foldl min m =
              (rest.filterMap (condPct ss)).foldl min st.percentage := by
            rw [hpcts]; simp [min_eq_right (le_of_lt hp)]
          by_cases ha : (rest.filterMap (condPct ss)).any
              (fun p => decide (p < st.percentage)) = true
          · rw [if_pos ha]
            have hMlt : (rest.filterMap (condPct ss)).foldl min st.percentage <
                st.percentage := by
              rw [foldl_min_lt_iff]
              obtain ⟨x, hx, hlt⟩ := List.any_eq_true.mp ha
              exact ⟨x, hx, of_decide_eq_true hlt⟩
            rw [List.find?_cons]
            have hpred : (condPct ss s ==
                some (((s :: rest).filterMap (condPct ss)).foldl min m)) = false := by
              rw [hc, hM]
              simp only [beq_eq_false_iff_ne, ne_eq, Option.some.injEq]
              intro hEq
              exact absurd hEq.symm (ne_of_lt hMlt)
            rw [hpred]
            congr 1
            funext x
            rw [hM]
          · rw [if_neg ha]
            have hall : ∀ x ∈ rest.filterMap (condPct ss), st.percentage ≤ x := by
              intro x hx
              by_contra hlt
              exact ha (List.any_eq_true.mpr ⟨x, hx, decide_eq_true (not_le.mp hlt)⟩)
            have hMeq : (rest.filterMap (condPct ss)).foldl min st.percentage =
                st.percentage := foldl_min_eq_init _ _ hall
            rw [List.find?_cons]
            have hpred : (condPct ss s ==
                some (((s :: rest).filterMap (condPct ss)).foldl min m)) = true := by
              rw [hc, hM, hMeq]; simp
            rw [hpred]
        · rw [show weakest_go ss (s :: rest) w m = weakest_go ss rest w m by
            simp [weakest_go, hl, ht, hp]]
          rw [weakest_go_eq ss rest w m]
          have hpcts : (s :: rest).filterMap (condPct ss) =
              st.percentage :: rest.filterMap (condPct ss) := by
            simp [List.filterMap_cons, hc]
          have hM : ((s :: rest).filterMap (condPct ss)).foldl min m =
              (rest.filterMap (condPct ss)).foldl min m := by
            rw [hpcts]; simp [min_eq_left (not_lt.mp hp)]
          have hany : ((s :: rest).filterMap (condPct ss)).any
              (fun p => decide (p < m)) =
              (rest.filterMap (condPct ss)).any (fun p => decide (p < m)) := by
            rw [hpcts]; simp [hp]
          rw [hany]
          by_cases ha : (rest.filterMap (condPct ss)).any
              (fun p => decide (p < m)) = true
          · rw [if_pos ha, if_pos ha]
            have hMlt : (rest.filterMap (condPct ss)).foldl min m < m := by
              rw [foldl_min_lt_iff]
              obtain ⟨x, hx, hlt⟩ := List.any_eq_true.mp ha
              exact ⟨x, hx, of_decide_eq_true hlt⟩
            rw [List.find?_cons]
            have hpred : (condPct ss s ==
                some (((s :: rest).filterMap (condPct ss)).foldl min m)) = false := by
              rw [hc, hM]
              simp only [beq_eq_false_iff_ne, ne_eq, Option.some.injEq]
              intro hEq
              exact absurd (not_lt.mp hp) (not_le.mpr (hEq ▸ hMlt))
            rw [hpred]
            congr 1
            funext x
            rw [hM]
          · rw [if_neg ha, if_neg ha]
      · have hc : condPct ss s = none := by simp [condPct, hl, ht]
        rw [show weakest_go ss (s :: rest) w m = weakest_go ss rest w m by
          simp [weakest_go, hl, ht]]
        rw [weakest_go_eq ss rest w m]
        simp [List.filterMap_cons, hc, List.find?_cons, Option.isSome]

/-- Data map showing the claim C3 failure: S1 has one recorded, successful
response (total 1, percentage 100.0) and no other slot has data. -/
def c3_stats : List (Str × SlotStats) :=
  [((("S1").toList), { total := 1, successful := 1, percentage := 100 })]

/-- Claim C3, counterexample: with S1 at total = 1 (> 0) and percentage
100.0 and no other S1–S5 slot having data, `_get_weakest_slot` returns
`None` — refuting "returns absent exactly when no S1–S5 slot has any
recorded response" and "if some S1–S5 slot has total > 0 the result is
never absent" (the running minimum starts at 100.0 and only a strictly
smaller percentage replaces it). -/
theorem get_weakest_slot_at_full_percentage :
    get_weakest_slot c3_stats = none ∧
    c3_stats.lookup (("S1").toList) =
      some { total := 1, successful := 1, percentage := 100 } := by
  constructor
  · decide
  · decide

/-- Claim C3, amended: `_get_weakest_slot` equals the selection rule "the
first S1–S5 slot (canonical order, hence ties keep the earlier slot)
whose percentage is minimal among the slots with at least one recorded
response — provided that minimum is strictly below 100.0; absent when no
S1–S5 slot has data or every S1–S5 slot with data sits at percentage ≥
100.0"; in particular S6 is never returned. -/
theorem get_weakest_slot_eq_spec (slots_stats : List (Str × SlotStats)) :
    get_weakest_slot slots_stats = weakest_slot_spec slots_stats ∧
    get_weakest_slot slots_stats ≠ some (("S6").toList) := by
  have h := weakest_go_eq slots_stats s1_s5_slots none 100
  constructor
  · rw [get_weakest_slot, weakest_slot_spec, h]
  · rw [get_weakest_slot, h]
    by_cases ha : (s1_s5_slots.filterMap (condPct slots_stats)).any
        (fun p => decide (p < 100)) = true
    · rw [if_pos ha]
      intro hfind
      have hmem := List.mem_of_find?_eq_some hfind
      revert hmem
      decide
    · rw [if_neg ha]
      exact fun hfind => Option.noConfusion hfind

theorem splitChar_sep_free (sep : Char) :
    ∀ (a : Str), sep ∉ a → splitChar sep a = [a]
  | [], _ => rfl
  | c :: a, h => by
    have hc : ¬ c = sep := fun hEq => h (hEq ▸ List.mem_cons_self c a)
    have ha : sep ∉ a := fun hmem => h (List.mem_cons_of_mem c hmem)
    simp only [splitChar, if_neg hc, splitChar_sep_free sep a ha]

theorem splitChar_append_sep (sep : Char) :
    ∀ (a b : Str), sep ∉ a →
      splitChar sep (a ++ sep :: b) = a :: splitChar sep b
  | [], b, _ => by simp [splitChar]
  | c :: a, b, h => by
    have hc : ¬ c = sep := fun hEq => h (hEq ▸ List.mem_cons_self c a)
    have ha : sep ∉ a := fun hmem => h (List.mem_cons_of_mem c hmem)
    have ih := splitChar_append_sep sep a b ha
    simp only [List.cons_append, splitChar, if_neg hc, List.append_eq, ih]

theorem isPrefixOf_exists_append :
    ∀ (p s : Str), p.isPrefixOf s = true → ∃ t, s = p ++ t
  | [], s, _ => ⟨s, rfl⟩
  | _ :: _, [], h => by simp [List.isPrefixOf] at h
  | c :: p, d :: s, h => by
    simp only [List.isPrefixOf, Bool.and_eq_true, beq_iff_eq] at h
    obtain ⟨t, ht⟩ := isPrefixOf_exists_append p s h.2
    exact ⟨t, by rw [h.1, ht]; rfl⟩

theorem isPrefixOf_append_self :
    ∀ (p r : Str), p.isPrefixOf (p ++ r) = true
  | [], _ => by simp [List.isPrefixOf]
  | c :: p, r => by
    simp only [List.cons_append, List.isPrefixOf, beq_self_eq_true,
      Bool.true_and]
    exact isPrefixOf_append_self p r

/-- Claim C4: every callback string emitted by the button layout parses
back to exactly its `(slot_id, token)` pair, and every string that does
not split on `_` into three segments `["slot", id, token]` with a known
slot id parses to `None`. -/
theorem parse_callback_data_round_trip :
    (∀ p ∈ SLOT_BUTTONS, ∀ tb ∈ p.2,
      parse_callback_data (format_callback p.1 tb.2) = some (p.1, tb.2)) ∧
    (∀ s : Str,
      (∀ a b : Str, splitChar '_' s = [("slot").toList, a, b] →
        a ∉ get_all_slot_ids) →
      parse_callback_data s = none) := by
  constructor
  · decide
  · intro s h
    by_cases hpre : ("slot_").toList.isPrefixOf s = true
    · obtain ⟨r, rfl⟩ := isPrefixOf_exists_append _ s hpre
      have hsp : splitChar '_' (("slot_").toList ++ r) =
          ("slot").toList :: splitChar '_' r := by
        have : ("slot_").toList ++ r = ("slot").toList ++ '_' :: r := rfl
        rw [this, splitChar_append_sep '_' (("slot").toList) r (by decide)]
      rw [parse_callback_data, hsp]
      simp only [hpre, Bool.not_true, Bool.false_eq_true, if_false]
      match hr : splitChar '_' r with
      | [] => rfl
      | [a] => rfl
      | [a, b] =>
        have hnotin := h a b (by rw [hsp, hr])
        simp [hnotin]
      | a :: b :: c :: t => rfl
    · rw [parse_callback_data]
      simp only [Bool.not_eq_true] at hpre
      rw [hpre]
      rfl

/-- Witness for C4 at the claim's concrete strings: a full round trip for
`S1`/`"success"`, and `None` for `"invalid_format"` and `"slot_S1"`. -/
theorem parse_callback_data_round_trip_witness :
    parse_callback_data (format_callback (("S1").toList) (("success").toList)) =
      some ((("S1").toList), (("success").toList)) ∧
    parse_callback_data (("invalid_format").toList) = none ∧
    parse_callback_data (("slot_S1").toList) = none := by
  refine ⟨?_, ?_, ?_⟩
  · exact parse_callback_data_round_trip.1
      ((("S1").toList),
        [ (("✅ Утро по плану (подъём, завтрак, зал/море)").toList, ("success").toList),
          (("⏭ Сегодня утренний ритуал пропустил").toList, ("skip").toList) ])
      (by decide)
      ((("✅ Утро по плану (подъём, завтрак, зал/море)").toList), (("success").toList))
      (by decide)
  · refine parse_callback_data_round_trip.2 _ ?_
    intro a b hab
    have := congrArg List.length hab
    simp [splitChar] at this
  · refine parse_callback_data_round_trip.2 _ ?_
    intro a b hab
    have := congrArg List.length hab
    simp [splitChar] at this

/-- Claim C10: `parse_callback_data` never checks the token against the
slot's button vocabulary — for every known slot id and every
underscore-free token `t` (the empty string included), the callback
string `slot_<id>_<t>` parses to `(id, t)`, and the button-callback
handler persists that arbitrary token as a new response row via
`save_response`. -/
theorem parse_accepts_arbitrary_tokens :
    ∀ id ∈ get_all_slot_ids, ∀ t : Str, '_' ∉ t →
      parse_callback_data (("slot_").toList ++ id ++ '_' :: t) = some (id, t) ∧
      ∀ (db : ResponseDb) (today : Int) (now_ts : Nat),
        handle_button_callback db today now_ts
            (("slot_").toList ++ id ++ '_' :: t) =
          db ++ [{ date := today, slot_id := id, button_choice := t,
                   timestamp := now_ts }] := by
  intro id hid t ht
  have hall : ∀ x ∈ get_all_slot_ids, '_' ∉ x := by decide
  have hu : '_' ∉ id := hall id hid
  rw [List.append_assoc]
  have hpre := isPrefixOf_append_self (("slot_").toList) (id ++ '_' :: t)
  have hsp : splitChar '_' (("slot_").toList ++ (id ++ '_' :: t)) =
      ("slot").toList :: splitChar '_' (id ++ '_' :: t) := by
    have hshape : ("slot_").toList ++ (id ++ '_' :: t) =
        ("slot").toList ++ '_' :: (id ++ '_' :: t) := rfl
    rw [hshape, splitChar_append_sep '_' (("slot").toList) _ (by decide)]
  have hparse : parse_callback_data (("slot_").toList ++ (id ++ '_' :: t)) =
      some (id, t) := by
    rw [parse_callback_data, hpre, hsp, splitChar_append_sep '_' id t hu,
      splitChar_sep_free '_' t ht]
    simp [hid]
  refine ⟨hparse, ?_⟩
  intro db today now_ts
  rw [handle_button_callback, hparse]
  rfl

/-- Witness for C10: the empty token and an out-of-vocabulary token both
parse for `S1`, and the handler records the arbitrary token. -/
theorem parse_accepts_arbitrary_tokens_witness :
    parse_callback_data (("slot_S1_").toList) = some ((("S1").toList), []) ∧
    parse_callback_data (("slot_S1_hacked").toList) =
      some ((("S1").toList), (("hacked").toList)) ∧
    handle_button_callback [] 100 5 (("slot_S1_hacked").toList) =
      [{ date := 100, slot_id := ("S1").toList,
         button_choice := ("hacked").toList, timestamp := 5 }] := by
  have h1 := parse_accepts_arbitrary_tokens (("S1").toList) (by decide) [] (by decide)
  have h2 := parse_accepts_arbitrary_tokens (("S1").toList) (by decide)
    (("hacked").toList) (by decide)
  have hs1 : (("slot_S1_").toList : Str) =
      ("slot_").toList ++ ("S1").toList ++ '_' :: [] := by decide
  have hs2 : (("slot_S1_hacked").toList : Str) =
      ("slot_").toList ++ ("S1").toList ++ '_' :: ("hacked").toList := by decide
  rw [hs1, hs2]
  exact ⟨h1.1, h2.1, h2.2 [] 100 5⟩

theorem lookup_match_append (l1 l2 : List (Str × Str)) (k : Str) :
    (l1 ++ l2).lookup k =
      match l1.lookup k with
      | some v => some v
      | none => l2.lookup k := by
  induction l1 with
  | nil => simp
  | cons p l ih =>
    by_cases h : (k == p.1) = true
    · simp [List.lookup, h]
    · simp only [List.cons_append, List.lookup, h]
      exact ih

theorem first_per_slot_lookup :
    ∀ (l : List SlotResponseRow) (acc : List (Str × Str)) (s : Str),
      (first_per_slot acc l).lookup s =
        match acc.lookup s with
        | some v => some v
        | none => (l.find? (fun r => r.slot_id == s)).map
            (fun r => r.button_choice)
  | [], acc, s => by
    cases h : acc.lookup s <;> simp [first_per_slot, h]
  | r :: rest, acc, s => by
    rw [first_per_slot]
    by_cases hs : (r.slot_id == s) = true
    · have hfp : List.find? (fun x => x.slot_id == s) (r :: rest) = some r := by
        simp [List.find?_cons, hs]
      have hss : s = r.slot_id := (eq_of_beq hs).symm
      subst hss
      by_cases hacc : (acc.lookup r.slot_id).isSome
      · rw [if_pos hacc, first_per_slot_lookup rest acc _, hfp]
        obtain ⟨v, hv⟩ := Option.isSome_iff_exists.mp hacc
        rw [hv]
      · rw [if_neg hacc, first_per_slot_lookup rest _ _,
          lookup_match_append acc [(r.slot_id, r.button_choice)] _, hfp]
        have haccn : acc.lookup r.slot_id = none :=
          Option.not_isSome_iff_eq_none.mp hacc
        rw [haccn]
        simp [List.lookup]
    · have hs' : (r.slot_id == s) = false := by
        cases hb : (r.slot_id == s)
        · rfl
        · exact absurd hb hs
      have hfp : List.find? (fun x => x.slot_id == s) (r :: rest) =
          List.find? (fun x => x.slot_id == s) rest := by
        simp [List.find?_cons, hs']
      by_cases hacc : (acc.lookup r.slot_id).isSome
      · rw [if_pos hacc, first_per_slot_lookup rest acc s, hfp]
      · rw [if_neg hacc, first_per_slot_lookup rest _ s,
          lookup_match_append acc [(r.slot_id, r.button_choice)] s, hfp]
        have hs2 : (s == r.slot_id) = false := by
          cases hbe : (s == r.slot_id)
          · rfl
          · exact absurd (beq_iff_eq.mpr (eq_of_beq hbe).symm) hs
        cases h : acc.lookup s <;> simp [List.lookup, hs2, h]

theorem first_per_slot_keys_isSome :
    ∀ (acc : List (Str × Str)) (k : Str), k ∈ acc.map Prod.fst →
      (acc.lookup k).isSome
  | p :: acc, k, h => by
    by_cases hk : (k == p.1) = true
    · simp [List.lookup, hk]
    · have hk' : (k == p.1) = false := by
        cases hb : (k == p.1)
        · rfl
        · exact absurd hb hk
      rcases List.mem_cons.mp h with h1 | h1
      · exact absurd (beq_iff_eq.mpr h1) hk
      · simp only [List.map_cons, List.lookup, hk']
        exact first_per_slot_keys_isSome acc k h1

theorem first_per_slot_keys_nodup :
    ∀ (l : List SlotResponseRow) (acc : List (Str × Str)),
      (acc.map Prod.fst).Nodup → ((first_per_slot acc l).map Prod.fst).Nodup
  | [], _, h => h
  | r :: rest, acc, h => by
    rw [first_per_slot]
    by_cases hacc : (acc.lookup r.slot_id).isSome
    · rw [if_pos hacc]
      exact first_per_slot_keys_nodup rest acc h
    · rw [if_neg hacc]
      refine first_per_slot_keys_nodup rest _ ?_
      rw [List.map_append]
      refine List.Nodup.append h (List.nodup_singleton _) ?_
      intro k hk hk1
      rcases List.mem_singleton.mp hk1 with rfl
      exact hacc (first_per_slot_keys_isSome acc _ hk)

theorem find?_sorted_recent (s : Str) :
    ∀ (L : List SlotResponseRow), L.Sorted ts_ge →
      (∀ r1 ∈ L, ∀ r2 ∈ L, r1.slot_id = s → r2.slot_id = s → r1 ≠ r2 →
        r1.timestamp ≠ r2.timestamp) →
      ∀ r, L.find? (fun x => x.slot_id == s) = some r →
        r ∈ L ∧ r.slot_id = s ∧
          ∀ r' ∈ L, r'.slot_id = s → r' ≠ r →
            r'.timestamp < r.timestamp := by
  intro L
  induction L with
  | nil => intro _ _ r h; simp at h
  | cons a T ih =>
    intro hsort hdist r hfind
    rw [List.sorted_cons] at hsort
    by_cases ha : (a.slot_id == s) = true
    · simp only [List.find?_cons, ha] at hfind
      cases Option.some.inj hfind
      refine ⟨List.mem_cons_self _ _, eq_of_beq ha, ?_⟩
      intro r' hr' hs' hne
      rcases List.mem_cons.mp hr' with rfl | hr'
      · exact absurd rfl hne
      · have hle : r'.timestamp ≤ a.timestamp := hsort.1 r' hr'
        have hnets : r'.timestamp ≠ a.timestamp :=
          hdist r' (List.mem_cons_of_mem _ hr') a (List.mem_cons_self _ _)
            hs' (eq_of_beq ha) hne
        exact lt_of_le_of_ne hle hnets
    · have ha' : (a.slot_id == s) = false := by
        cases hb : (a.slot_id == s)
        · rfl
        · exact absurd hb ha
      simp only [List.find?_cons, ha'] at hfind
      have hT := ih hsort.2
        (fun r1 h1 r2 h2 => hdist r1 (List.mem_cons_of_mem _ h1) r2
          (List.mem_cons_of_mem _ h2)) r hfind
      refine ⟨List.mem_cons_of_mem _ hT.1, hT.2.1, ?_⟩
      intro r' hr' hs' hne
      rcases List.mem_cons.mp hr' with rfl | hr'
      · exact absurd (beq_iff_eq.mpr hs') ha
      · exact hT.2.2 r' hr' hs' hne

/-- Claim C7: for any day, `get_day_responses` maps each slot that has at
least one response that day (and only those — with no duplicate keys) to
the button choice of its most recently timestamped row, provided rows of
the same (day, slot) have distinct timestamps. -/
theorem get_day_responses_recency (db : ResponseDb) (d : Int)
    (hdist : ∀ r1 ∈ db, ∀ r2 ∈ db, r1.date = d → r2.date = d →
      r1.slot_id = r2.slot_id → r1 ≠ r2 → r1.timestamp ≠ r2.timestamp)
    (s : Str) :
    (∀ c, (get_day_responses db d).lookup s = some c ↔
      ∃ r ∈ db, r.date = d ∧ r.slot_id = s ∧ r.button_choice = c ∧
        ∀ r' ∈ db, r'.date = d → r'.slot_id = s → r' ≠ r →
          r'.timestamp < r.timestamp) ∧
    (((get_day_responses db d).lookup s).isSome ↔
      ∃ r ∈ db, r.date = d ∧ r.slot_id = s) ∧
    ((get_day_responses db d).map Prod.fst).Nodup := by
  have hlookup : ∀ s' : Str, (get_day_responses db d).lookup s' =
      ((List.insertionSort ts_ge
          (db.filter (fun r => decide (r.date = d)))).find?
        (fun r => r.slot_id == s')).map (fun r => r.button_choice) := by
    intro s'
    rw [get_day_responses, first_per_slot_lookup]
    rfl
  set L := List.insertionSort ts_ge (db.filter (fun r => decide (r.date = d)))
    with hLdef
  have hmemL : ∀ r, r ∈ L ↔ (r ∈ db ∧ r.date = d) := by
    intro r
    rw [hLdef, (List.perm_insertionSort ts_ge _).mem_iff, List.mem_filter]
    simp
  have hsort : L.Sorted ts_ge := List.sorted_insertionSort ts_ge _
  have hdistL : ∀ r1 ∈ L, ∀ r2 ∈ L, r1.slot_id = s → r2.slot_id = s →
      r1 ≠ r2 → r1.timestamp ≠ r2.timestamp := by
    intro r1 h1 r2 h2 hs1 hs2 hne
    obtain ⟨h1db, h1d⟩ := (hmemL r1).mp h1
    obtain ⟨h2db, h2d⟩ := (hmemL r2).mp h2
    exact hdist r1 h1db r2 h2db h1d h2d (hs1.trans hs2.symm) hne
  refine ⟨?_, ?_, ?_⟩
  · intro c
    constructor
    · intro h
      rw [hlookup s] at h
      obtain ⟨r0, hfind, hc⟩ := Option.map_eq_some'.mp h
      obtain ⟨hr0L, hr0s, hr0max⟩ := find?_sorted_recent s L hsort hdistL r0 hfind
      obtain ⟨hr0db, hr0d⟩ := (hmemL r0).mp hr0L
      refine ⟨r0, hr0db, hr0d, hr0s, hc, ?_⟩
      intro r' hr' hd' hs' hne
      exact hr0max r' ((hmemL r').mpr ⟨hr', hd'⟩) hs' hne
    · rintro ⟨r, hrdb, hrd, hrs, hrc, hrmax⟩
      have hsome : (L.find? (fun x => x.slot_id == s)).isSome := by
        rw [List.find?_isSome]
        exact ⟨r, (hmemL r).mpr ⟨hrdb, hrd⟩, beq_iff_eq.mpr hrs⟩
      obtain ⟨r1, hfind⟩ := Option.isSome_iff_exists.mp hsome
      obtain ⟨hr1L, hr1s, hr1max⟩ := find?_sorted_recent s L hsort hdistL r1 hfind
      obtain ⟨hr1db, hr1d⟩ := (hmemL r1).mp hr1L
      have hr1r : r1 = r := by
        by_contra hne
        have h1 : r1.timestamp < r.timestamp :=
          hrmax r1 hr1db hr1d hr1s hne
        have h2 : r.timestamp < r1.timestamp :=
          hr1max r ((hmemL r).mpr ⟨hrdb, hrd⟩) hrs (fun hEq => hne hEq.symm)
        exact absurd (lt_trans h1 h2) (lt_irrefl _)
      rw [hlookup s, hfind, hr1r]
      simp [hrc]
  · rw [hlookup s, Option.isSome_map']
    rw [List.find?_isSome]
    constructor
    · rintro ⟨x, hxL, hxs⟩
      obtain ⟨hxdb, hxd⟩ := (hmemL x).mp hxL
      exact ⟨x, hxdb, hxd, eq_of_beq hxs⟩
    · rintro ⟨r, hrdb, hrd, hrs⟩
      exact ⟨r, (hmemL r).mpr ⟨hrdb, hrd⟩, beq_iff_eq.mpr hrs⟩
  · rw [get_day_responses]
    exact first_per_slot_keys_nodup _ [] (by simp)

/-- Two same-day responses for `S1` with different timestamps: the later
(`"skip"`, timestamp 20) should win over the earlier (`"success"`,
timestamp 10). -/
def c7_db : ResponseDb :=
  [{ date := 100, slot_id := ("S1").toList,
     button_choice := ("success").toList, timestamp := 10 },
   { date := 100, slot_id := ("S1").toList,
     button_choice := ("skip").toList, timestamp := 20 }]

/-- Witness for C7: on the two-row database the most recently timestamped
choice (`"skip"`) is returned, not the first-inserted one. -/
theorem get_day_responses_recency_witness :
    (get_day_responses c7_db 100).lookup (("S1").toList) =
      some (("skip").toList) := by
  have h := get_day_responses_recency c7_db 100 (by decide) (("S1").toList)
  refine (h.1 (("skip").toList)).mpr ?_
  refine ⟨{ date := 100, slot_id := ("S1").toList,
            button_choice := ("skip").toList, timestamp := 20 },
    by decide, rfl, rfl, rfl, ?_⟩
  decide

end WhoopBot
